import Mathlib

/-!
Verification of the host-side CAN driver for the dual-axis positioner
(`positioner.py`, `status.py`).  The driver is embedded shallowly:

* the CAN channel is a list of `Option RxFrame` values, one entry per
  `bus.recv` call (an entry `none` models a receive window that expired
  with no frame; an exhausted list keeps yielding `none`);
* outbound traffic is a list of `Frame` values accumulated in order;
* a Python function that can terminate only by raising an exception is
  modelled in `Except Unit`, the `error` case standing for an uncaught
  exception propagating to the caller;
* unbounded loops (`wait_move`, the firmware streaming loop) take a fuel
  argument; a result of `none` at every fuel means the loop never exits.

The tables of `commands.py` (`COMMANDS`, `RESPONSE_CODE_NUMBER`) are not
among the sources; they are modelled from the spec as parameters, see the
doc comments of `buildFrameId` and `getResponseCode`.
-/

/-- Commands named in `positioner.py` (keys into the `COMMANDS` table). -/
inductive Command where
  | GET_STATUS
  | GET_ID
  | GET_FIRMWARE_VERSION
  | GET_ACTUAL_POSITION
  | SET_ACTUAL_POSITION
  | SEND_NEW_FIRMWARE
  | FIRMWARE_DATA
  | GOTO_POSITION_ABSOLUTE
  | GOTO_POSITION_RELATIVE
  | SET_SPEED
  | SET_CURRENT
  | SET_LOW_POWER_CURRENT
  | SWITCH_OFF_HALL_AFTER_MOVE_CMD
  | SWITCH_ON_HALL_AFTER_MOVE_CMD
  | INITIALIZE_DATUMS
  | GOTO_DATUM_ALPHA
  | GOTO_DATUM_BETA
  | SEND_TRAJECTORY_NEW
  | SEND_TRAJECTORY_DATA
  | SEND_TRAJECTORY_DATA_END
  | START_TRAJECTORY
  | STOP_TRAJECTORY
  | GET_ADC_ONE
  | GET_MOTOR_POWER
  | GET_HALL_POS
  | GET_HALL_OUTPUT
  | ERASE_EXT_FLASH
  | READ_EXT_FLASH
  | WRITE_EXT_FLASH
  | REQUEST_REBOOT
  | GET_ALPHA_HALL_CALIB
  | GET_BETA_HALL_CALIB
  | CALIB_MOTORS
  | SET_ALPHA_OPEN_LOOP_NO_COLL_DETECT
  | SET_BETA_OPEN_LOOP_NO_COLL_DETECT
  | SET_ALPHA_CLOSED_LOOP
  | SET_BETA_CLOSED_LOOP
  | SET_ALPHA_CLOSED_LOOP_NO_COLL_DETECT
  | SET_BETA_CLOSED_LOOP_NO_COLL_DETECT
  | SWITCH_OFF_PRECISE_ALPHA
  | SWITCH_OFF_PRECISE_BETA
  | SWITCH_ON_PRECISE_ALPHA
  | SWITCH_ON_PRECISE_BETA
deriving DecidableEq, Repr

/-- Outbound CAN message as produced by `Positioner._send_command`:
the command (the arbitration id is `_build_frame_id` of it) and the
payload bytes (`extra_data`). -/
structure Frame where
  command : Command
  data : List Nat
deriving DecidableEq, Repr

/-- Inbound CAN message as consumed by the driver: the 29-bit
`arbitration_id` and the payload bytes. -/
structure RxFrame where
  arbitration_id : Nat
  data : List Nat
deriving DecidableEq, Repr

/-- Bit position of the device address in the frame id
(`Positioner._CAN_ID_BIT_SHIFT`). -/
def CAN_ID_BIT_SHIFT : Nat := 18

/-- Bit position of the command opcode in the frame id
(`Positioner._COMMAND_BIT_SHIFT`). -/
def COMMAND_BIT_SHIFT : Nat := 10

/-- Position counts per full rotation (`Positioner._POSITION_RESOLUTION`). -/
def POSITION_RESOLUTION : Nat := 2 ^ 30

/-- Timestamp steps per second (`Positioner._TIME_RESOLUTION`). -/
def TIME_RESOLUTION : Nat := 2000

/-- `Positioner._build_frame_id`:
`(self._canid << _CAN_ID_BIT_SHIFT) + (COMMANDS[command] << _COMMAND_BIT_SHIFT)`.
Modelled from the spec: the `COMMANDS` table lives in `commands.py`, which is
not among the sources, so the already looked-up opcode `COMMANDS[command]` is
taken as the argument `opcode`; per the spec the opcodes are fixed small
integers drawn from the command table. -/
def buildFrameId (canid opcode : Nat) : Nat :=
  (canid <<< CAN_ID_BIT_SHIFT) + (opcode <<< COMMAND_BIT_SHIFT)

/-- `Positioner._get_response_code`:
`RESPONSE_CODE_NUMBER[busid & (2**cls._COMMAND_BIT_SHIFT-1)]`.
Modelled from the spec: the `RESPONSE_CODE_NUMBER` table lives in
`commands.py`, which is not among the sources; it is taken as the argument
`table`, a partial mapping from response code to symbolic name.  A result
`none` is a failed lookup, i.e. a `KeyError` raised by the subscript. -/
def getResponseCode (table : Nat → Option String) (busid : Nat) : Option String :=
  table (busid &&& (2 ^ COMMAND_BIT_SHIFT - 1))

/-- The bits `[lo + width - 1 : lo]` of `i` (field extraction used by the
spec to state which bits of a frame id hold the address and the opcode). -/
def bitsField (i lo width : Nat) : Nat :=
  i / 2 ^ lo % 2 ^ width

/-- Claim C1: for every device address `addr < 2^11` and every opcode of a
defined command (an 8-bit value, fitting the `[17:10]` field), the built
frame identifier equals `(addr << 18) + (opcode << 10)`; extracting bits
`[28:18]` of it returns `addr`, bits `[17:10]` return the opcode, and bits
`[9:0]` are `0`. -/
theorem buildFrameId_fields (addr opcode : Nat)
    (ha : addr < 2 ^ 11) (ho : opcode < 2 ^ 8) :
    buildFrameId addr opcode = addr * 2 ^ 18 + opcode * 2 ^ 10 ∧
    bitsField (buildFrameId addr opcode) 18 11 = addr ∧
    bitsField (buildFrameId addr opcode) 10 8 = opcode ∧
    bitsField (buildFrameId addr opcode) 0 10 = 0 := by
  simp only [buildFrameId, bitsField, CAN_ID_BIT_SHIFT, COMMAND_BIT_SHIFT,
    Nat.shiftLeft_eq]
  norm_num
  omega

/-- Claim C1, witness: the field extraction round-trips at address `1234`
and opcode `77`. -/
theorem buildFrameId_fields_witness :
    (1234 : Nat) < 2 ^ 11 ∧ (77 : Nat) < 2 ^ 8 ∧
    bitsField (buildFrameId 1234 77) 18 11 = 1234 ∧
    bitsField (buildFrameId 1234 77) 10 8 = 77 ∧
    bitsField (buildFrameId 1234 77) 0 10 = 0 :=
  ⟨by norm_num, by norm_num,
    (buildFrameId_fields 1234 77 (by norm_num) (by norm_num)).2.1,
    (buildFrameId_fields 1234 77 (by norm_num) (by norm_num)).2.2.1,
    (buildFrameId_fields 1234 77 (by norm_num) (by norm_num)).2.2.2⟩

/-- Python's built-in `round` on an exact value: round half to even.
Angles and seconds are modelled as exact rationals, so `float` artifacts
are out of scope; on exact inputs CPython rounds ties to the even
neighbour. -/
def pythonRound (q : ℚ) : ℤ :=
  if q - ⌊q⌋ < 1 / 2 then ⌊q⌋
  else if 1 / 2 < q - ⌊q⌋ then ⌊q⌋ + 1
  else if ⌊q⌋ % 2 = 0 then ⌊q⌋ else ⌊q⌋ + 1

/-- `Positioner._angle_to_position`: `round(angle / 360 * cls._POSITION_RESOLUTION)`. -/
def angleToPosition (angle : ℚ) : ℤ :=
  pythonRound (angle / 360 * (POSITION_RESOLUTION : ℚ))

/-- `Positioner._position_to_angle`: `position / cls._POSITION_RESOLUTION * 360`. -/
def positionToAngle (position : ℤ) : ℚ :=
  (position : ℚ) / (POSITION_RESOLUTION : ℚ) * 360

/-- `Positioner._seconds_to_timestamp`: `round(seconds * cls._TIME_RESOLUTION)`. -/
def secondsToTimestamp (seconds : ℚ) : ℤ :=
  pythonRound (seconds * (TIME_RESOLUTION : ℚ))

/-- `Positioner._timestamp_to_seconds`: `timestamp / cls._TIME_RESOLUTION`. -/
def timestampToSeconds (timestamp : ℤ) : ℚ :=
  (timestamp : ℚ) / (TIME_RESOLUTION : ℚ)

/-- Rounding moves an exact rational by at most one half. -/
theorem abs_pythonRound_sub_le (q : ℚ) : |(pythonRound q : ℚ) - q| ≤ 1 / 2 := by
  have h0 : (⌊q⌋ : ℚ) ≤ q := Int.floor_le q
  have h1 : q < ⌊q⌋ + 1 := Int.lt_floor_add_one q
  unfold pythonRound
  split_ifs with hlt hgt heven <;>
    · rw [abs_le]
      push_neg at *
      constructor <;> push_cast <;> linarith

/-- Claim C7: `angle_to_position` is `round(a / 360 * 2^30)`,
`position_to_angle` is `counts / 2^30 * 360`, and the round trip
`position_to_angle(angle_to_position(a))` differs from `a` by at most
`360 / 2^30` degrees, for every angle whose count representation fits a
signed 32-bit integer. -/
theorem angle_position_roundtrip (a : ℚ)
    (_hrange : -(2 ^ 31) ≤ angleToPosition a ∧ angleToPosition a < 2 ^ 31) :
    angleToPosition a = pythonRound (a / 360 * 2 ^ 30) ∧
    (∀ c : ℤ, positionToAngle c = (c : ℚ) / 2 ^ 30 * 360) ∧
    |positionToAngle (angleToPosition a) - a| ≤ 360 / 2 ^ 30 := by
  refine ⟨by norm_num [angleToPosition, POSITION_RESOLUTION],
    fun c => by norm_num [positionToAngle, POSITION_RESOLUTION], ?_⟩
  have hb := abs_pythonRound_sub_le (a / 360 * (2 : ℚ) ^ 30)
  have key : positionToAngle (angleToPosition a) - a
      = ((pythonRound (a / 360 * (2 : ℚ) ^ 30) : ℚ) - a / 360 * (2 : ℚ) ^ 30)
        * (360 / 2 ^ 30) := by
    simp only [positionToAngle, angleToPosition, POSITION_RESOLUTION]
    push_cast
    ring
  rw [key, abs_mul, abs_of_pos (show (0 : ℚ) < 360 / 2 ^ 30 by norm_num)]
  have hm := mul_le_mul_of_nonneg_right hb
    (show (0 : ℚ) ≤ 360 / 2 ^ 30 by norm_num)
  linarith

/-- Claim C7, witness: the round trip at `a = 45` degrees stays within the
bound, the count value `2^27` fitting a signed 32-bit integer. -/
theorem angle_position_roundtrip_witness :
    (-(2 ^ 31) ≤ angleToPosition 45 ∧ angleToPosition 45 < 2 ^ 31) ∧
    |positionToAngle (angleToPosition 45) - 45| ≤ 360 / 2 ^ 30 :=
  ⟨⟨by norm_num [angleToPosition, pythonRound, POSITION_RESOLUTION],
    by norm_num [angleToPosition, pythonRound, POSITION_RESOLUTION]⟩,
    (angle_position_roundtrip 45
      ⟨by norm_num [angleToPosition, pythonRound, POSITION_RESOLUTION],
       by norm_num [angleToPosition, pythonRound, POSITION_RESOLUTION]⟩).2.2⟩

/-- Named flags of the bootloader status register (`BootloaderFlagBits` in
`status.py`): one boolean per named bit of the `uint32`, bit 0 least
significant; the remaining bits are reserved. -/
structure BootloaderFlags where
  init : Bool
  timeout : Bool
  config_changed : Bool
  bsettings_changed : Bool
  receiving_firmware : Bool
  firmware_received : Bool
  firmware_ok : Bool
  firmware_bad : Bool
deriving DecidableEq, Repr

/-- Reading the `BootloaderStatus` union through its bit fields after
storing `raw` in `asInt`: field `k` of the little-endian bit-field struct
is bit `k` of the `uint32`. -/
def decodeBootloader (raw : Nat) : BootloaderFlags where
  init := raw.testBit 0
  timeout := raw.testBit 1
  config_changed := raw.testBit 8
  bsettings_changed := raw.testBit 9
  receiving_firmware := raw.testBit 16
  firmware_received := raw.testBit 24
  firmware_ok := raw.testBit 25
  firmware_bad := raw.testBit 26

/-- Named flags of the positioner status register (`PositionerFlagBits` in
`status.py`): one boolean per named bit of the `uint64`, bit 0 least
significant; bits 40 and above are reserved. -/
structure PositionerFlags where
  init : Bool
  config_changed : Bool
  bsettings_changed : Bool
  data_streaming : Bool
  receiving_trajectory : Bool
  trajectory_alpha_received : Bool
  trajectory_beta_received : Bool
  low_power_after_move : Bool
  displacement_completed : Bool
  displacement_completed_alpha : Bool
  displacement_completed_beta : Bool
  collision_alpha : Bool
  collision_beta : Bool
  closed_loop_alpha : Bool
  closed_loop_beta : Bool
  precise_positioning_alpha : Bool
  precise_positioning_beta : Bool
  collision_detect_alpha_disable : Bool
  collision_detect_beta_disable : Bool
  motor_calibration : Bool
  motor_alpha_calibrated : Bool
  motor_beta_calibrated : Bool
  datum_calibration : Bool
  datum_alpha_calibrated : Bool
  datum_beta_calibrated : Bool
  datum_initialization : Bool
  datum_alpha_initialized : Bool
  datum_beta_initialized : Bool
  hall_alpha_disable : Bool
  hall_beta_disable : Bool
  cogging_calibration : Bool
  cogging_alpha_calibrated : Bool
  cogging_beta_calibrated : Bool
  estimated_position : Bool
  position_restored : Bool
  switch_off_after_move : Bool
  calibration_saved : Bool
  precise_move_in_open_loop_alpha : Bool
  precise_move_in_open_loop_beta : Bool
  switch_off_hall_after_move : Bool
deriving DecidableEq, Repr

/-- Reading the `PositionerStatus` union through its bit fields after
storing `raw` in `asInt`: field `k` of the little-endian bit-field struct
is bit `k` of the `uint64`. -/
def decodePositioner (raw : Nat) : PositionerFlags where
  init := raw.testBit 0
  config_changed := raw.testBit 1
  bsettings_changed := raw.testBit 2
  data_streaming := raw.testBit 3
  receiving_trajectory := raw.testBit 4
  trajectory_alpha_received := raw.testBit 5
  trajectory_beta_received := raw.testBit 6
  low_power_after_move := raw.testBit 7
  displacement_completed := raw.testBit 8
  displacement_completed_alpha := raw.testBit 9
  displacement_completed_beta := raw.testBit 10
  collision_alpha := raw.testBit 11
  collision_beta := raw.testBit 12
  closed_loop_alpha := raw.testBit 13
  closed_loop_beta := raw.testBit 14
  precise_positioning_alpha := raw.testBit 15
  precise_positioning_beta := raw.testBit 16
  collision_detect_alpha_disable := raw.testBit 17
  collision_detect_beta_disable := raw.testBit 18
  motor_calibration := raw.testBit 19
  motor_alpha_calibrated := raw.testBit 20
  motor_beta_calibrated := raw.testBit 21
  datum_calibration := raw.testBit 22
  datum_alpha_calibrated := raw.testBit 23
  datum_beta_calibrated := raw.testBit 24
  datum_initialization := raw.testBit 25
  datum_alpha_initialized := raw.testBit 26
  datum_beta_initialized := raw.testBit 27
  hall_alpha_disable := raw.testBit 28
  hall_beta_disable := raw.testBit 29
  cogging_calibration := raw.testBit 30
  cogging_alpha_calibrated := raw.testBit 31
  cogging_beta_calibrated := raw.testBit 32
  estimated_position := raw.testBit 33
  position_restored := raw.testBit 34
  switch_off_after_move := raw.testBit 35
  calibration_saved := raw.testBit 36
  precise_move_in_open_loop_alpha := raw.testBit 37
  precise_move_in_open_loop_beta := raw.testBit 38
  switch_off_hall_after_move := raw.testBit 39

/-- Claim C8: decoding preserves exact bit order (bit 0 least
significant): the bootloader raw `uint32` with only bit 8 set decodes to
`config_changed = true` with every other named flag false, and the
positioner raw `uint64` with only bit 8 set decodes to
`displacement_completed = true` with every other named flag false. -/
theorem statusDecode_bit8 :
    decodeBootloader (2 ^ 8) =
      { init := false, timeout := false, config_changed := true,
        bsettings_changed := false, receiving_firmware := false,
        firmware_received := false, firmware_ok := false,
        firmware_bad := false } ∧
    decodePositioner (2 ^ 8) =
      { init := false, config_changed := false, bsettings_changed := false,
        data_streaming := false, receiving_trajectory := false,
        trajectory_alpha_received := false,
        trajectory_beta_received := false, low_power_after_move := false,
        displacement_completed := true,
        displacement_completed_alpha := false,
        displacement_completed_beta := false, collision_alpha := false,
        collision_beta := false, closed_loop_alpha := false,
        closed_loop_beta := false, precise_positioning_alpha := false,
        precise_positioning_beta := false,
        collision_detect_alpha_disable := false,
        collision_detect_beta_disable := false, motor_calibration := false,
        motor_alpha_calibrated := false, motor_beta_calibrated := false,
        datum_calibration := false, datum_alpha_calibrated := false,
        datum_beta_calibrated := false, datum_initialization := false,
        datum_alpha_initialized := false, datum_beta_initialized := false,
        hall_alpha_disable := false, hall_beta_disable := false,
        cogging_calibration := false, cogging_alpha_calibrated := false,
        cogging_beta_calibrated := false, estimated_position := false,
        position_restored := false, switch_off_after_move := false,
        calibration_saved := false,
        precise_move_in_open_loop_alpha := false,
        precise_move_in_open_loop_beta := false,
        switch_off_hall_after_move := false } := by
  decide

deriving instance DecidableEq for Except

/-- State of one `Positioner` session during a call: the frames sent so
far (in order), the upcoming results of successive `bus.recv(1)` calls,
and the stored status register `self.status.asInt`. -/
structure DriverState where
  sent : List Frame
  recvs : List (Option RxFrame)
  status : Nat
deriving DecidableEq, Repr

/-- One `bus.recv(1)` call: pops the next result from the channel; an
exhausted channel keeps yielding `none` (no frame within the wait). -/
def recv1 : List (Option RxFrame) → Option RxFrame × List (Option RxFrame)
  | [] => (none, [])
  | a :: rest => (a, rest)

/-- The attempt loop of `Positioner._get_answer`, instrumented with the
number of `recv` calls made: `n` attempts remain; each attempt does one
`recv` and returns the frame if one arrived. -/
def getAnswerAux : Nat → List (Option RxFrame) → Option RxFrame × List (Option RxFrame) × Nat
  | 0, rs => (none, rs, 0)
  | n + 1, rs =>
    match recv1 rs with
    | (some f, rest) => (some f, rest, 1)
    | (none, rest) =>
      let r := getAnswerAux n rest
      (r.1, r.2.1, r.2.2 + 1)

/-- `Positioner._get_answer`: `for i in range(5): answer = self._bus.recv(1);
if answer is not None: return answer` then `return None`.  Returns the
reply (or `none`), the remaining channel, and the number of `recv` calls. -/
def getAnswer (rs : List (Option RxFrame)) : Option RxFrame × List (Option RxFrame) × Nat :=
  getAnswerAux 5 rs

/-- `Positioner._send_command`: builds the frame and sends it on the bus
(send errors are swallowed and logged, so the state change is exactly the
appended frame). -/
def sendCommand (st : DriverState) (command : Command) (extra_data : List Nat) : DriverState :=
  { st with sent := st.sent ++ [⟨command, extra_data⟩] }

/-- A `self._get_answer()` call made from an operation: consumes channel
entries, keeps the sent log and status. -/
def stepGetAnswer (st : DriverState) : Option RxFrame × DriverState :=
  ((getAnswer st.recvs).1, { st with recvs := (getAnswer st.recvs).2.1 })

/-- The attempt loop makes at most `n` receive calls. -/
theorem getAnswerAux_polls_le (n : Nat) :
    ∀ rs, (getAnswerAux n rs).2.2 ≤ n := by
  induction n with
  | zero => intro rs; simp [getAnswerAux]
  | succ n ih =>
    intro rs
    match rs with
    | [] => simpa [getAnswerAux, recv1] using Nat.succ_le_succ (ih [])
    | some f :: rest => simp [getAnswerAux, recv1]
    | none :: rest => simpa [getAnswerAux, recv1] using Nat.succ_le_succ (ih rest)

/-- If the first `n` receive windows all expire empty, the attempt loop
returns `none` after exactly `n` receive calls. -/
theorem getAnswerAux_all_none (n : Nat) :
    ∀ rs, (∀ i, i < n → rs.getD i none = none) →
      (getAnswerAux n rs).1 = none ∧ (getAnswerAux n rs).2.2 = n := by
  induction n with
  | zero => intro rs _; simp [getAnswerAux]
  | succ n ih =>
    intro rs h
    match rs with
    | [] =>
      have := ih [] (by simp)
      simp [getAnswerAux, recv1, this.1, this.2]
    | some f :: rest =>
      have := h 0 (Nat.succ_pos n)
      simp at this
    | none :: rest =>
      have := ih rest (fun i hi => by
        have := h (i + 1) (Nat.succ_lt_succ hi)
        simpa using this)
      simp [getAnswerAux, recv1, this.1, this.2]

/-- The attempt loop returns the first frame that arrives within its
window. -/
theorem getAnswerAux_first_some (n : Nat) :
    ∀ rs i f, i < n → rs.getD i none = some f →
      (∀ j, j < i → rs.getD j none = none) →
      (getAnswerAux n rs).1 = some f ∧ (getAnswerAux n rs).2.2 = i + 1 := by
  induction n with
  | zero => intro rs i f hi; omega
  | succ n ih =>
    intro rs i f hi hf hprev
    match rs with
    | [] => simp at hf
    | a :: rest =>
      match i with
      | 0 =>
        simp at hf
        simp [getAnswerAux, recv1, hf]
      | i + 1 =>
        have ha : a = none := by simpa using hprev 0 (Nat.succ_pos i)
        subst ha
        have := ih rest i f (Nat.lt_of_succ_lt_succ hi) (by simpa using hf)
          (fun j hj => by simpa using hprev (j + 1) (Nat.succ_lt_succ hj))
        simp [getAnswerAux, recv1, this.1, this.2]

/-- Claim C3: the receive step polls the channel at most 5 times, returns
the first non-empty reply it gets, and returns `none` after exactly 5
polls when every attempt yields nothing. -/
theorem getAnswer_bounded (rs : List (Option RxFrame)) :
    (getAnswer rs).2.2 ≤ 5 ∧
    ((∀ i, i < 5 → rs.getD i none = none) →
      (getAnswer rs).1 = none ∧ (getAnswer rs).2.2 = 5) ∧
    (∀ i f, i < 5 → rs.getD i none = some f →
      (∀ j, j < i → rs.getD j none = none) →
      (getAnswer rs).1 = some f ∧ (getAnswer rs).2.2 = i + 1) :=
  ⟨getAnswerAux_polls_le 5 rs, getAnswerAux_all_none 5 rs,
    fun i f hi hf hprev => getAnswerAux_first_some 5 rs i f hi hf hprev⟩

/-- Claim C3, witness: a channel that yields nothing 5 times produces
`none` after exactly 5 polls, and a channel whose third window delivers a
frame produces that frame after exactly 3 polls. -/
theorem getAnswer_bounded_witness :
    ((getAnswer [none, none, none, none, none]).1 = none ∧
      (getAnswer [none, none, none, none, none]).2.2 = 5) ∧
    ((getAnswer [none, none, some ⟨1, []⟩]).1 = some ⟨1, []⟩ ∧
      (getAnswer [none, none, some ⟨1, []⟩]).2.2 = 3) :=
  ⟨(getAnswer_bounded [none, none, none, none, none]).2.1 (by decide),
    (getAnswer_bounded [none, none, some ⟨1, []⟩]).2.2 2 ⟨1, []⟩
      (by norm_num) (by decide) (by decide)⟩

/-- `struct.unpack` of a little-endian unsigned integer: the first byte is
least significant. -/
def unpackLE : List Nat → Nat
  | [] => 0
  | b :: rest => b + 256 * unpackLE rest

/-- `Positioner.get_status`: sends `GET_STATUS`, waits for the reply; on a
reply it looks the response code up (`_get_response_code`, which raises a
`KeyError` — modelled as `Except.error ()` — when the masked code is not
in the table) and then stores `struct.unpack('<Q', answer.data)` in
`self.status.asInt` — `unpack` raises an uncaught `struct.error`
(`Except.error ()` again) unless the payload is exactly 8 bytes; with no
reply it only logs and returns. -/
def getStatus (table : Nat → Option String) (st : DriverState) : Except Unit DriverState :=
  let st1 := sendCommand st Command.GET_STATUS []
  let r := stepGetAnswer st1
  match r.1 with
  | some f =>
    match getResponseCode table f.arbitration_id with
    | none => Except.error ()
    | some _ =>
      if f.data.length = 8 then Except.ok { r.2 with status := unpackLE f.data }
      else Except.error ()
  | none => Except.ok r.2

/-- A response table for scenarios: it knows only the response code `1`. -/
def tableOne : Nat → Option String :=
  fun code => if code = 1 then some "COMMAND_ACCEPTED" else none

/-- Claim C2, counterexample: a received frame whose identifier masks to
the unknown response code `2` makes `get_status` raise an uncaught
exception to its caller (`Except.error`), instead of the logged, per-
transaction failure the claim describes. -/
theorem getStatus_unknown_code_cex :
    tableOne ((2 : Nat) &&& (2 ^ 10 - 1)) = none ∧
    getStatus tableOne ⟨[], [some ⟨2, [0, 0, 0, 0, 0, 0, 0, 0]⟩], 0⟩ =
      Except.error () := by
  constructor
  · decide
  · rfl

/-- Claim C2, amended: response-code extraction computes
`received_id & 0x3FF` (the low 10 bits) and looks it up in the response
table; when the masked code is not in the table the lookup raises an
uncaught exception that propagates to the caller of the operation (shown
here for `get_status`) — it is neither caught nor logged by the driver. -/
theorem getResponseCode_mask_and_raise (table : Nat → Option String)
    (busid : Nat) (st : DriverState) (f : RxFrame)
    (hans : (getAnswer st.recvs).1 = some f)
    (hmiss : table (f.arbitration_id &&& (2 ^ 10 - 1)) = none) :
    getResponseCode table busid = table (busid % 2 ^ 10) ∧
    getStatus table st = Except.error () := by
  constructor
  · exact congrArg table (Nat.and_pow_two_sub_one_eq_mod busid 10)
  · simp only [getStatus, stepGetAnswer, sendCommand, getResponseCode,
      COMMAND_BIT_SHIFT, hans, hmiss]

/-- Claim C2, witness for the amended statement: with a channel delivering
a frame whose identifier `1029` masks to the unknown code `5`,
`get_status` propagates the exception; and the extraction at `busid = 1029`
is the low-10-bit reduction. -/
theorem getResponseCode_mask_and_raise_witness :
    (getAnswer ([some ⟨1029, []⟩] : List (Option RxFrame))).1 = some ⟨1029, []⟩ ∧
    tableOne ((1029 : Nat) &&& (2 ^ 10 - 1)) = none ∧
    getResponseCode tableOne 1029 = tableOne (1029 % 2 ^ 10) ∧
    getStatus tableOne ⟨[], [some ⟨1029, []⟩], 0⟩ = Except.error () :=
  ⟨by decide, by decide,
    (getResponseCode_mask_and_raise tableOne 1029 ⟨[], [some ⟨1029, []⟩], 0⟩
      ⟨1029, []⟩ (by decide) (by decide)).1,
    (getResponseCode_mask_and_raise tableOne 1029 ⟨[], [some ⟨1029, []⟩], 0⟩
      ⟨1029, []⟩ (by decide) (by decide)).2⟩

/-- Common shape of the five paired dual-axis mode operations: send the
alpha command and wait; with no reply, log and `return None`; with a reply
decode its response code (raising on an unknown code), then do the same
for the beta command; every path returns Python `None`, modelled as
`(none : Option Unit)`. -/
def pairedCommand (table : Nat → Option String) (ca cb : Command)
    (st : DriverState) : Except Unit (Option Unit × DriverState) :=
  let st1 := sendCommand st ca []
  let r := stepGetAnswer st1
  match r.1 with
  | none => Except.ok (none, r.2)
  | some f =>
    match getResponseCode table f.arbitration_id with
    | none => Except.error ()
    | some _ =>
      let st3 := sendCommand r.2 cb []
      let r2 := stepGetAnswer st3
      match r2.1 with
      | none => Except.ok (none, r2.2)
      | some f2 =>
        match getResponseCode table f2.arbitration_id with
        | none => Except.error ()
        | some _ => Except.ok (none, r2.2)

/-- `Positioner.set_mode_open_loop`. -/
def setModeOpenLoop (table : Nat → Option String) (st : DriverState) :
    Except Unit (Option Unit × DriverState) :=
  pairedCommand table Command.SET_ALPHA_OPEN_LOOP_NO_COLL_DETECT
    Command.SET_BETA_OPEN_LOOP_NO_COLL_DETECT st

/-- `Positioner.set_mode_closed_loop`. -/
def setModeClosedLoop (table : Nat → Option String) (st : DriverState) :
    Except Unit (Option Unit × DriverState) :=
  pairedCommand table Command.SET_ALPHA_CLOSED_LOOP
    Command.SET_BETA_CLOSED_LOOP st

/-- `Positioner.set_mode_closed_loop_no_colision`. -/
def setModeClosedLoopNoColision (table : Nat → Option String) (st : DriverState) :
    Except Unit (Option Unit × DriverState) :=
  pairedCommand table Command.SET_ALPHA_CLOSED_LOOP_NO_COLL_DETECT
    Command.SET_BETA_CLOSED_LOOP_NO_COLL_DETECT st

/-- `Positioner.set_precision_mode_off`. -/
def setPrecisionModeOff (table : Nat → Option String) (st : DriverState) :
    Except Unit (Option Unit × DriverState) :=
  pairedCommand table Command.SWITCH_OFF_PRECISE_ALPHA
    Command.SWITCH_OFF_PRECISE_BETA st

/-- `Positioner.set_precision_mode_on`. -/
def setPrecisionModeOn (table : Nat → Option String) (st : DriverState) :
    Except Unit (Option Unit × DriverState) :=
  pairedCommand table Command.SWITCH_ON_PRECISE_ALPHA
    Command.SWITCH_ON_PRECISE_BETA st

/-- With no reply to the alpha transaction, a paired operation sends only
the alpha frame and returns `None`. -/
theorem pairedCommand_alpha_fail (table : Nat → Option String)
    (ca cb : Command) (st : DriverState)
    (hans : (getAnswer st.recvs).1 = none) :
    pairedCommand table ca cb st =
      Except.ok (none,
        ⟨st.sent ++ [⟨ca, []⟩], (getAnswer st.recvs).2.1, st.status⟩) := by
  simp only [pairedCommand, stepGetAnswer, sendCommand, hans]

/-- A channel on which the first transaction gets no reply within the
5-attempt budget. -/
def chanFail : DriverState := ⟨[], [], 0⟩

/-- A channel delivering a decodable reply to each of two transactions. -/
def chanBoth : DriverState := ⟨[], [some ⟨1, []⟩, some ⟨1, []⟩], 0⟩

/-- Claim C4, counterexample: for `set_mode_closed_loop`, the alpha-failed
run (only the alpha frame sent) and the both-axes-succeeded run (both
frames sent, both replies decoded) return the very same value
`Ok None`, so the failure is not distinguishable by the caller. -/
theorem pairedResult_indistinguishable_cex :
    setModeClosedLoop tableOne chanFail =
      Except.ok (none, ⟨[⟨Command.SET_ALPHA_CLOSED_LOOP, []⟩], [], 0⟩) ∧
    setModeClosedLoop tableOne chanBoth =
      Except.ok (none, ⟨[⟨Command.SET_ALPHA_CLOSED_LOOP, []⟩,
        ⟨Command.SET_BETA_CLOSED_LOOP, []⟩], [], 0⟩) ∧
    (setModeClosedLoop tableOne chanFail).map Prod.fst =
      (setModeClosedLoop tableOne chanBoth).map Prod.fst := by
  refine ⟨rfl, rfl, rfl⟩

/-- Claim C4, amended: each paired dual-axis mode operation issues two
transactions, alpha then beta; whenever the alpha transaction gets no
reply, the beta transaction is never sent and the operation returns early
after logging — but the returned value is `None` on every path, so the
caller cannot distinguish the failure from the both-axes-succeeded result
by the returned value. -/
theorem pairedOps_alpha_fail (table : Nat → Option String) (st : DriverState)
    (hans : (getAnswer st.recvs).1 = none) :
    setModeOpenLoop table st = Except.ok (none,
      ⟨st.sent ++ [⟨Command.SET_ALPHA_OPEN_LOOP_NO_COLL_DETECT, []⟩],
        (getAnswer st.recvs).2.1, st.status⟩) ∧
    setModeClosedLoop table st = Except.ok (none,
      ⟨st.sent ++ [⟨Command.SET_ALPHA_CLOSED_LOOP, []⟩],
        (getAnswer st.recvs).2.1, st.status⟩) ∧
    setModeClosedLoopNoColision table st = Except.ok (none,
      ⟨st.sent ++ [⟨Command.SET_ALPHA_CLOSED_LOOP_NO_COLL_DETECT, []⟩],
        (getAnswer st.recvs).2.1, st.status⟩) ∧
    setPrecisionModeOff table st = Except.ok (none,
      ⟨st.sent ++ [⟨Command.SWITCH_OFF_PRECISE_ALPHA, []⟩],
        (getAnswer st.recvs).2.1, st.status⟩) ∧
    setPrecisionModeOn table st = Except.ok (none,
      ⟨st.sent ++ [⟨Command.SWITCH_ON_PRECISE_ALPHA, []⟩],
        (getAnswer st.recvs).2.1, st.status⟩) :=
  ⟨pairedCommand_alpha_fail table _ _ st hans,
    pairedCommand_alpha_fail table _ _ st hans,
    pairedCommand_alpha_fail table _ _ st hans,
    pairedCommand_alpha_fail table _ _ st hans,
    pairedCommand_alpha_fail table _ _ st hans⟩

/-- Claim C4, witness for the amended statement: on a channel that yields
no reply, `set_precision_mode_on` sends only the alpha frame and returns
`None`. -/
theorem pairedOps_alpha_fail_witness :
    (getAnswer (List.replicate 5 none : List (Option RxFrame))).1 = none ∧
    setPrecisionModeOn tableOne ⟨[], List.replicate 5 none, 0⟩ =
      Except.ok (none, ⟨[⟨Command.SWITCH_ON_PRECISE_ALPHA, []⟩], [], 0⟩) :=
  ⟨by decide,
    (pairedOps_alpha_fail tableOne ⟨[], List.replicate 5 none, 0⟩
      (by decide)).2.2.2.2⟩

/-- Little-endian packing of an unsigned integer on `k` bytes
(`struct.pack` with format `<I`). -/
def leBytes : Nat → Nat → List Nat
  | 0, _ => []
  | k + 1, n => n % 256 :: leBytes k (n / 256)

/-- One bit step of the reflected CRC-32 (polynomial `0xEDB88320`). -/
def crc32Bit (c : Nat) : Nat :=
  if c % 2 = 1 then (c / 2) ^^^ 0xEDB88320 else c / 2

/-- One byte step of the reflected CRC-32. -/
def crc32Byte (c b : Nat) : Nat :=
  crc32Bit (crc32Bit (crc32Bit (crc32Bit
    (crc32Bit (crc32Bit (crc32Bit (crc32Bit (c ^^^ (b &&& 255)))))))))

/-- `Positioner._crc`: `zlib.crc32` folded over the whole file content
(the per-line reads feed one running checksum, so the result is the CRC-32
of the concatenation), with the standard initial value and final
complement. -/
def crc32 (data : List Nat) : Nat :=
  data.foldl crc32Byte 0xFFFFFFFF ^^^ 0xFFFFFFFF

set_option maxRecDepth 10000 in
/-- The CRC-32 check value: the checksum of the ASCII digits 1 to 9. -/
theorem crc32_check_value :
    crc32 [0x31, 0x32, 0x33, 0x34, 0x35, 0x36, 0x37, 0x38, 0x39] =
      0xCBF43926 := by
  decide

/-- Successive 8-byte reads of a file (`f.read(8)` in the
`firmware_upgrade` loop): each read yields up to 8 bytes, the loop body
runs at least once even on an empty file. -/
def chunks8 (file : List Nat) : List (List Nat) :=
  if file.length ≤ 8 then [file]
  else file.take 8 :: chunks8 (file.drop 8)
termination_by file.length
decreasing_by simp; omega

/-- All reads of a file concatenate back to the file. -/
theorem chunks8_flatten : ∀ file : List Nat, (chunks8 file).flatten = file
  | file => by
    rw [chunks8]
    split_ifs with h
    · simp
    · have ih := chunks8_flatten (file.drop 8)
      simp [ih]
termination_by file => file.length
decreasing_by simp; omega

/-- Every read yields at most 8 bytes. -/
theorem chunks8_length_le : ∀ file : List Nat, ∀ c ∈ chunks8 file, c.length ≤ 8
  | file => by
    rw [chunks8]
    split_ifs with h
    · simpa using h
    · intro c hc
      rcases List.mem_cons.mp hc with hc | hc
      · subst hc; simp
      · exact chunks8_length_le (file.drop 8) c hc
termination_by file => file.length
decreasing_by simp; omega

/-- The streaming loop of `Positioner.firmware_upgrade`: read up to 8
bytes, send them as one `FIRMWARE_DATA` transaction, collect (and ignore)
the answer, and stop when the cumulative count equals the announced file
size.  The loop has no exit of its own, so it takes fuel; `none` models
the loop still running when the fuel is spent. -/
def firmwareLoop : Nat → DriverState → List Nat → Nat → Nat → Option DriverState
  | 0, _, _, _, _ => none
  | fuel + 1, st, rest, filesize, transferred =>
    let data := rest.take 8
    let st1 := sendCommand st Command.FIRMWARE_DATA data
    let transferred1 := transferred + data.length
    let r := stepGetAnswer st1
    if transferred1 = filesize then some r.2
    else firmwareLoop fuel r.2 (rest.drop 8) filesize transferred1

/-- `struct.pack('<II', a, b)`: two little-endian unsigned 32-bit
values; `pack` raises an uncaught `struct.error` (modelled as `none`)
when a value does not fit `[0, 2^32)`. -/
def packII (a b : Nat) : Option (List Nat) :=
  if a < 2 ^ 32 ∧ b < 2 ^ 32 then some (leBytes 4 a ++ leBytes 4 b)
  else none

/-- Each CRC-32 bit step keeps the running value below `2^32`. -/
theorem crc32Bit_lt (c : Nat) (h : c < 2 ^ 32) : crc32Bit c < 2 ^ 32 := by
  unfold crc32Bit
  split_ifs with hodd
  · exact Nat.xor_lt_two_pow (by omega) (by norm_num)
  · omega

/-- Each CRC-32 byte step keeps the running value below `2^32`. -/
theorem crc32Byte_lt (c b : Nat) (h : c < 2 ^ 32) : crc32Byte c b < 2 ^ 32 := by
  unfold crc32Byte
  have h0 : c ^^^ (b &&& 255) < 2 ^ 32 := by
    have hb : b &&& 255 ≤ 255 := Nat.and_le_right
    exact Nat.xor_lt_two_pow h (by omega)
  exact crc32Bit_lt _ (crc32Bit_lt _ (crc32Bit_lt _ (crc32Bit_lt _
    (crc32Bit_lt _ (crc32Bit_lt _ (crc32Bit_lt _ (crc32Bit_lt _ h0)))))))

/-- The CRC-32 of any content is an unsigned 32-bit value, so the header
pack never fails on the checksum side. -/
theorem crc32_lt (data : List Nat) : crc32 data < 2 ^ 32 := by
  unfold crc32
  have hfold : ∀ (l : List Nat) (acc : Nat), acc < 2 ^ 32 →
      l.foldl crc32Byte acc < 2 ^ 32 := by
    intro l
    induction l with
    | nil => intro acc h; simpa using h
    | cons b rest ih =>
      intro acc h
      simpa using ih (crc32Byte acc b) (crc32Byte_lt acc b h)
  exact Nat.xor_lt_two_pow (hfold _ _ (by norm_num)) (by norm_num)

/-- `Positioner.firmware_upgrade`: pack file size and CRC-32 into one
8-byte header with `struct.pack('<II', …)` — raising for a size at or
beyond `2^32` — and send it as one `SEND_NEW_FIRMWARE` transaction; only
on a reply (whose response code must decode) stream the file through
`firmwareLoop`.  `file.length + 1` fuel provably outlasts the loop,
which sends one chunk per iteration. -/
def firmwareUpgrade (table : Nat → Option String) (st : DriverState)
    (file : List Nat) : Except Unit (Option DriverState) :=
  let filesize := file.length
  let checksum := crc32 file
  match packII filesize checksum with
  | none => Except.error ()
  | some header =>
    let st1 := sendCommand st Command.SEND_NEW_FIRMWARE header
    let r := stepGetAnswer st1
    match r.1 with
    | none => Except.ok (some r.2)
    | some f =>
      match getResponseCode table f.arbitration_id with
      | none => Except.error ()
      | some _ => Except.ok (firmwareLoop (filesize + 1) r.2 file filesize 0)

/-- With enough fuel, the streaming loop terminates exactly when the
cumulative count reaches the announced size, having sent one
`FIRMWARE_DATA` frame per 8-byte read. -/
theorem firmwareLoop_trace : ∀ (fuel : Nat) (rest : List Nat)
    (st : DriverState) (transferred : Nat), rest.length < fuel →
    ∃ rs, firmwareLoop fuel st rest (transferred + rest.length) transferred =
      some ⟨st.sent ++
        (chunks8 rest).map (fun c => ⟨Command.FIRMWARE_DATA, c⟩),
        rs, st.status⟩ := by
  intro fuel
  induction fuel with
  | zero => intro rest st transferred h; omega
  | succ fuel ih =>
    intro rest st transferred h
    by_cases h8 : rest.length ≤ 8
    · refine ⟨(getAnswer st.recvs).2.1, ?_⟩
      have htake : rest.take 8 = rest := List.take_of_length_le h8
      have hlen : (rest.take 8).length = rest.length := by rw [htake]
      simp only [firmwareLoop, stepGetAnswer, sendCommand, hlen, htake,
        if_pos rfl]
      rw [chunks8]
      simp [h8]
    · have hch : chunks8 rest = rest.take 8 :: chunks8 (rest.drop 8) := by
        rw [chunks8]
        simp [h8]
      have hlen : (rest.take 8).length = 8 := by
        simp [List.length_take]; omega
      have hne : transferred + (rest.take 8).length ≠
          transferred + rest.length := by rw [hlen]; omega
      have hrec := ih (rest.drop 8)
        ⟨st.sent ++ [⟨Command.FIRMWARE_DATA, rest.take 8⟩],
          (getAnswer st.recvs).2.1, st.status⟩
        (transferred + 8) (by simp [List.length_drop]; omega)
      have harith : transferred + 8 + (rest.drop 8).length =
          transferred + rest.length := by simp [List.length_drop]; omega
      rw [harith] at hrec
      obtain ⟨rs, hrs⟩ := hrec
      refine ⟨rs, ?_⟩
      simp only [firmwareLoop, stepGetAnswer, sendCommand, if_neg hne]
      rw [hlen, hrs, hch]
      simp

/-- Claim C5: for every file whose size `struct.pack('<II', …)` accepts
(below `2^32`; the CRC is always packable by `crc32_lt`), firmware
upgrade first sends file size and CRC-32 as an 8-byte header in one
`SEND_NEW_FIRMWARE` transaction; with no reply nothing is streamed; on a
(decodable) reply it streams the file in 8-byte reads, one
`FIRMWARE_DATA` transaction per read, stopping exactly when the
cumulative byte count equals the announced size — the sent chunks
concatenate to the file, their lengths sum to the file size, and each
carries at most 8 bytes. -/
theorem firmwareUpgrade_protocol (table : Nat → Option String)
    (st : DriverState) (file : List Nat) (hsize : file.length < 2 ^ 32) :
    ((getAnswer st.recvs).1 = none →
      firmwareUpgrade table st file = Except.ok (some
        ⟨st.sent ++ [⟨Command.SEND_NEW_FIRMWARE,
          leBytes 4 file.length ++ leBytes 4 (crc32 file)⟩],
          (getAnswer st.recvs).2.1, st.status⟩)) ∧
    (∀ f s, (getAnswer st.recvs).1 = some f →
      getResponseCode table f.arbitration_id = some s →
      ∃ st', firmwareUpgrade table st file = Except.ok (some st') ∧
        st'.sent = st.sent ++ [⟨Command.SEND_NEW_FIRMWARE,
          leBytes 4 file.length ++ leBytes 4 (crc32 file)⟩] ++
          (chunks8 file).map (fun c => ⟨Command.FIRMWARE_DATA, c⟩) ∧
        st'.status = st.status) ∧
    ((chunks8 file).flatten = file ∧
      ((chunks8 file).map List.length).sum = file.length ∧
      ∀ c ∈ chunks8 file, c.length ≤ 8) := by
  have hpack : packII file.length (crc32 file) =
      some (leBytes 4 file.length ++ leBytes 4 (crc32 file)) := by
    unfold packII
    rw [if_pos ⟨hsize, crc32_lt file⟩]
  refine ⟨?_, ?_, chunks8_flatten file, ?_, chunks8_length_le file⟩
  · intro h
    simp only [firmwareUpgrade, hpack, stepGetAnswer, sendCommand, h]
  · intro f s hf hs
    simp only [firmwareUpgrade, hpack, stepGetAnswer, sendCommand, hf, hs]
    have hrs := firmwareLoop_trace (file.length + 1) file
      ⟨st.sent ++ [⟨Command.SEND_NEW_FIRMWARE,
        leBytes 4 file.length ++ leBytes 4 (crc32 file)⟩],
        (getAnswer st.recvs).2.1, st.status⟩ 0 (by omega)
    rw [Nat.zero_add] at hrs
    obtain ⟨rs, hrs⟩ := hrs
    exact ⟨⟨st.sent ++ [⟨Command.SEND_NEW_FIRMWARE,
        leBytes 4 file.length ++ leBytes 4 (crc32 file)⟩] ++
        (chunks8 file).map (fun c => ⟨Command.FIRMWARE_DATA, c⟩),
        rs, st.status⟩, by rw [hrs], rfl, rfl⟩
  · rw [← List.length_flatten, chunks8_flatten]

/-- Claim C5, witness: a 20-byte file is streamed as exactly 3
`FIRMWARE_DATA` transactions of 8, 8 and 4 bytes after the announced
header. -/
theorem firmwareUpgrade_protocol_witness :
    (List.replicate 20 7).length < 2 ^ 32 ∧
    chunks8 (List.replicate 20 7) =
      [List.replicate 8 7, List.replicate 8 7, List.replicate 4 7] ∧
    (chunks8 (List.replicate 20 7)).map List.length = [8, 8, 4] ∧
    (getAnswer ([some ⟨1, []⟩] : List (Option RxFrame))).1 = some ⟨1, []⟩ ∧
    getResponseCode tableOne 1 = some "COMMAND_ACCEPTED" ∧
    ∃ st', firmwareUpgrade tableOne ⟨[], [some ⟨1, []⟩], 0⟩
        (List.replicate 20 7) = Except.ok (some st') ∧
      st'.sent = [] ++ [⟨Command.SEND_NEW_FIRMWARE,
        leBytes 4 (List.replicate 20 7).length ++
          leBytes 4 (crc32 (List.replicate 20 7))⟩] ++
        (chunks8 (List.replicate 20 7)).map
          (fun c => ⟨Command.FIRMWARE_DATA, c⟩) ∧
      st'.status = 0 :=
  ⟨by decide, by simp [chunks8], by simp [chunks8], by decide, by decide,
    (firmwareUpgrade_protocol tableOne ⟨[], [some ⟨1, []⟩], 0⟩
      (List.replicate 20 7) (by decide)).2.1 ⟨1, []⟩ "COMMAND_ACCEPTED"
      (by decide) (by decide)⟩

/-- The channel left over by the attempt loop is a suffix of the original
channel. -/
theorem getAnswerAux_drop (n : Nat) :
    ∀ rs, ∃ k, (getAnswerAux n rs).2.1 = rs.drop k := by
  induction n with
  | zero => intro rs; exact ⟨0, rfl⟩
  | succ n ih =>
    intro rs
    match rs with
    | [] =>
      obtain ⟨k, hk⟩ := ih []
      exact ⟨0, by simpa [getAnswerAux, recv1] using hk⟩
    | some f :: rest => exact ⟨1, by simp [getAnswerAux, recv1]⟩
    | none :: rest =>
      obtain ⟨k, hk⟩ := ih rest
      exact ⟨k + 1, by simpa [getAnswerAux, recv1] using hk⟩

/-- A frame returned by the attempt loop was on the channel. -/
theorem getAnswerAux_some_mem (n : Nat) :
    ∀ rs f, (getAnswerAux n rs).1 = some f → some f ∈ rs := by
  induction n with
  | zero => intro rs f h; simp [getAnswerAux] at h
  | succ n ih =>
    intro rs f h
    match rs with
    | [] =>
      have := ih [] f (by simpa [getAnswerAux, recv1] using h)
      simp at this
    | some g :: rest =>
      simp [getAnswerAux, recv1] at h
      simp [h]
    | none :: rest =>
      have := ih rest f (by simpa [getAnswerAux, recv1] using h)
      simp [this]

/-- A channel entry is decodable when it is empty or its frame's masked
response code is in the table (so `_get_response_code` will not raise). -/
def goodRx (table : Nat → Option String) : Option RxFrame → Bool
  | none => true
  | some f => (getResponseCode table f.arbitration_id).isSome

/-- Every entry of the channel is decodable. -/
def goodChan (table : Nat → Option String) (rs : List (Option RxFrame)) : Prop :=
  ∀ or ∈ rs, goodRx table or = true

instance goodChanDecidable (table : Nat → Option String)
    (rs : List (Option RxFrame)) : Decidable (goodChan table rs) :=
  List.decidableBAll (fun or => goodRx table or = true) rs

/-- Decodability survives consuming channel entries. -/
theorem goodChan_getAnswer (table : Nat → Option String)
    (rs : List (Option RxFrame)) (h : goodChan table rs) :
    goodChan table ((getAnswer rs).2.1) := by
  obtain ⟨k, hk⟩ := getAnswerAux_drop 5 rs
  rw [getAnswer, hk]
  intro or hor
  exact h or (List.mem_of_mem_drop hor)

/-- A reply received on a decodable channel has its code in the table. -/
theorem goodChan_some (table : Nat → Option String)
    (rs : List (Option RxFrame)) (f : RxFrame) (h : goodChan table rs)
    (hf : (getAnswer rs).1 = some f) :
    ∃ s, getResponseCode table f.arbitration_id = some s := by
  have hmem := getAnswerAux_some_mem 5 rs f hf
  have := h (some f) hmem
  simp [goodRx, Option.isSome_iff_exists] at this
  obtain ⟨s, hs⟩ := this
  exact ⟨s, hs⟩

/-- A signed value fits `struct.pack` format `i` (a 32-bit int). -/
def int32Ok (i : Int) : Prop := -(2 ^ 31) ≤ i ∧ i < 2 ^ 31

instance int32OkDecidable (i : Int) : Decidable (int32Ok i) :=
  inferInstanceAs (Decidable (_ ∧ _))

/-- Executable form of the 32-bit range check, written by cases on the
sign so that it evaluates by natural-number comparison:
`int32Chk_iff` proves it equal to `int32Ok`. -/
def int32Chk (i : Int) : Bool :=
  match i with
  | Int.ofNat n => decide (n < 2 ^ 31)
  | Int.negSucc n => decide (n < 2 ^ 31)

/-- The executable range check decides `int32Ok`. -/
theorem int32Chk_iff (i : Int) : int32Chk i = true ↔ int32Ok i := by
  cases i with
  | ofNat n =>
    simp only [int32Chk, int32Ok, decide_eq_true_eq, Int.ofNat_eq_coe]
    omega
  | negSucc n =>
    simp only [int32Chk, int32Ok, decide_eq_true_eq, Int.negSucc_eq]
    omega

/-- Two's-complement `uint32` image of an in-range `int32` (for such
values the reduction mod `2^32` is exact reinterpretation, never silent
wrapping: `packii` checks the range first). -/
def uint32ofInt (i : Int) : Nat := (i % (2 ^ 32 : Int)).toNat

/-- The bytes `struct.pack('<ii', a, b)` produces on in-range values:
two little-endian 32-bit two's-complement fields. -/
def packiiBytes (a b : Int) : List Nat :=
  leBytes 4 (uint32ofInt a) ++ leBytes 4 (uint32ofInt b)

/-- `struct.pack('<ii', a, b)`: raises an uncaught `struct.error`
(modelled as `none`) when either value is outside `[-2^31, 2^31)`. -/
def packii (a b : Int) : Option (List Nat) :=
  if int32Chk a && int32Chk b then some (packiiBytes a b) else none

/-- Packing succeeds exactly on in-range values. -/
theorem packii_ok (a b : Int) (ha : int32Ok a) (hb : int32Ok b) :
    packii a b = some (packiiBytes a b) := by
  unfold packii
  rw [if_pos]
  rw [Bool.and_eq_true]
  exact ⟨(int32Chk_iff a).mpr ha, (int32Chk_iff b).mpr hb⟩

/-- Both conversions of a waypoint `(angle degrees, seconds)` fit the
32-bit fields of `struct.pack('<ii', …)`. -/
def waypointOk (p : ℚ × ℚ) : Prop :=
  int32Ok (angleToPosition p.1) ∧ int32Ok (secondsToTimestamp p.2)

instance waypointOkDecidable (p : ℚ × ℚ) : Decidable (waypointOk p) :=
  inferInstanceAs (Decidable (_ ∧ _))

/-- The `SEND_TRAJECTORY_DATA` frame of one waypoint
`(angle degrees, seconds)`: angle converted to position counts, time to a
timestamp, packed `<ii`. -/
def trajDataFrame (p : ℚ × ℚ) : Frame :=
  ⟨Command.SEND_TRAJECTORY_DATA,
    packiiBytes (angleToPosition p.1) (secondsToTimestamp p.2)⟩

/-- The `SEND_TRAJECTORY_NEW` announcement frame with both point counts. -/
def trajNewFrame (m n : Nat) : Frame :=
  ⟨Command.SEND_TRAJECTORY_NEW, packiiBytes (m : Int) (n : Int)⟩

/-- The `SEND_TRAJECTORY_DATA_END` marker frame. -/
def trajEndFrame : Frame := ⟨Command.SEND_TRAJECTORY_DATA_END, []⟩

/-- One per-axis loop of `Positioner.send_trajectory`: for each waypoint,
convert units, pack them with `struct.pack('<ii', …)` — raising an
uncaught `struct.error` for an out-of-int32 value, before anything is
sent — then send one `SEND_TRAJECTORY_DATA` transaction and wait; a
received reply has its response code decoded (raising on an unknown code)
while a missing reply is simply skipped — the loop continues either way. -/
def sendPoints (table : Nat → Option String) :
    DriverState → List (ℚ × ℚ) → Except Unit DriverState
  | st, [] => Except.ok st
  | st, p :: rest =>
    let position := angleToPosition p.1
    let timestamp := secondsToTimestamp p.2
    match packii position timestamp with
    | none => Except.error ()
    | some packetdata =>
      let st1 := sendCommand st Command.SEND_TRAJECTORY_DATA packetdata
      let r := stepGetAnswer st1
      match r.1 with
      | none => sendPoints table r.2 rest
      | some f =>
        match getResponseCode table f.arbitration_id with
        | none => Except.error ()
        | some _ => sendPoints table r.2 rest

/-- The body of `Positioner.send_trajectory` after the announcement
payload is packed: announce both point counts with one
`SEND_TRAJECTORY_NEW` transaction; with no reply, log and return at
once; on a (decodable) reply send every alpha waypoint, then every beta
waypoint, then one `SEND_TRAJECTORY_DATA_END` transaction. -/
def sendTrajectoryRest (table : Nat → Option String) (st : DriverState)
    (alpha beta : List (ℚ × ℚ)) (packetdata : List Nat) :
    Except Unit DriverState :=
  let st1 := sendCommand st Command.SEND_TRAJECTORY_NEW packetdata
  let r := stepGetAnswer st1
  match r.1 with
  | none => Except.ok r.2
  | some f =>
    match getResponseCode table f.arbitration_id with
    | none => Except.error ()
    | some _ =>
      match sendPoints table r.2 alpha with
      | Except.error e => Except.error e
      | Except.ok st3 =>
        match sendPoints table st3 beta with
        | Except.error e => Except.error e
        | Except.ok st4 =>
          let st5 := sendCommand st4 Command.SEND_TRAJECTORY_DATA_END []
          let r2 := stepGetAnswer st5
          match r2.1 with
          | none => Except.ok r2.2
          | some f2 =>
            match getResponseCode table f2.arbitration_id with
            | none => Except.error ()
            | some _ => Except.ok r2.2

/-- `Positioner.send_trajectory` proper: pack the point counts (raising
for counts at or beyond `2^31`, before anything is sent), then run the
rest of the function on the packed announcement payload. -/
def sendTrajectory (table : Nat → Option String) (st : DriverState)
    (alpha beta : List (ℚ × ℚ)) : Except Unit DriverState :=
  match packii (alpha.length : Int) (beta.length : Int) with
  | none => Except.error ()
  | some packetdata => sendTrajectoryRest table st alpha beta packetdata

/-- On a decodable channel, and with every waypoint's converted values
fitting the packed 32-bit fields, the per-axis loop sends exactly one
data frame per waypoint, in order, regardless of which replies arrive. -/
theorem sendPoints_trace (table : Nat → Option String) :
    ∀ (pts : List (ℚ × ℚ)) (st : DriverState), goodChan table st.recvs →
      (∀ p ∈ pts, waypointOk p) →
      ∃ rs, sendPoints table st pts =
        Except.ok ⟨st.sent ++ pts.map trajDataFrame, rs, st.status⟩ ∧
        goodChan table rs := by
  intro pts
  induction pts with
  | nil => intro st h _; exact ⟨st.recvs, by simp [sendPoints], h⟩
  | cons p rest ih =>
    intro st h hwp
    obtain ⟨hp1, hp2⟩ := hwp p (List.mem_cons_self p rest)
    have hpk := packii_ok _ _ hp1 hp2
    have h2 : goodChan table ((getAnswer st.recvs).2.1) :=
      goodChan_getAnswer table st.recvs h
    obtain ⟨rs, hok, hg⟩ := ih
      ⟨st.sent ++ [⟨Command.SEND_TRAJECTORY_DATA,
        packiiBytes (angleToPosition p.1) (secondsToTimestamp p.2)⟩],
        (getAnswer st.recvs).2.1, st.status⟩ h2
      (fun q hq => hwp q (List.mem_cons_of_mem p hq))
    refine ⟨rs, ?_, hg⟩
    cases hra : (getAnswer st.recvs).1 with
    | none =>
      simp only [sendPoints, hpk, stepGetAnswer, sendCommand, hra]
      rw [hok]
      simp [trajDataFrame]
    | some f =>
      obtain ⟨s, hs⟩ := goodChan_some table st.recvs f h hra
      simp only [sendPoints, hpk, stepGetAnswer, sendCommand, hra, hs]
      rw [hok]
      simp [trajDataFrame]

/-- Reduction of `send_trajectory` once the announcement payload packs. -/
theorem sendTrajectory_pack_some (table : Nat → Option String)
    (st : DriverState) (alpha beta : List (ℚ × ℚ)) (packetdata : List Nat)
    (hpk : packii (alpha.length : Int) (beta.length : Int) = some packetdata) :
    sendTrajectory table st alpha beta =
      sendTrajectoryRest table st alpha beta packetdata := by
  delta sendTrajectory
  rw [hpk]

/-- Shared trace lemma: when the announcement transaction gets a reply on
a decodable channel, `send_trajectory` sends the announcement, one data
frame per alpha waypoint, then one per beta waypoint, then the end
marker, whatever replies the later transactions get. -/
theorem sendTrajectory_ok_trace (table : Nat → Option String)
    (st : DriverState) (alpha beta : List (ℚ × ℚ)) (f : RxFrame)
    (hm : int32Ok (alpha.length : Int)) (hn : int32Ok (beta.length : Int))
    (hwa : ∀ p ∈ alpha, waypointOk p) (hwb : ∀ p ∈ beta, waypointOk p)
    (hgood : goodChan table st.recvs)
    (hans : (getAnswer st.recvs).1 = some f) :
    ∃ st', sendTrajectory table st alpha beta = Except.ok st' ∧
      st'.sent = st.sent ++ [trajNewFrame alpha.length beta.length] ++
        alpha.map trajDataFrame ++ beta.map trajDataFrame ++
        [trajEndFrame] ∧
      st'.status = st.status := by
  have hpkN := packii_ok _ _ hm hn
  obtain ⟨s, hs⟩ := goodChan_some table st.recvs f hgood hans
  obtain ⟨rs1, hok1, hg1⟩ := sendPoints_trace table alpha
    ⟨st.sent ++ [⟨Command.SEND_TRAJECTORY_NEW,
      packiiBytes (alpha.length : Int) (beta.length : Int)⟩],
      (getAnswer st.recvs).2.1, st.status⟩
    (goodChan_getAnswer table st.recvs hgood) hwa
  obtain ⟨rs2, hok2, hg2⟩ := sendPoints_trace table beta
    ⟨(st.sent ++ [⟨Command.SEND_TRAJECTORY_NEW,
      packiiBytes (alpha.length : Int) (beta.length : Int)⟩]) ++
      alpha.map trajDataFrame, rs1, st.status⟩ hg1 hwb
  rw [sendTrajectory_pack_some table st alpha beta _ hpkN]
  simp only [sendTrajectoryRest, stepGetAnswer, sendCommand, hans, hs]
  simp only [hok1]
  simp only [hok2]
  cases hr2 : (getAnswer rs2).1 with
  | none =>
    simp only [hr2]
    refine ⟨_, rfl, ?_, rfl⟩
    simp [trajNewFrame, trajEndFrame]
  | some f2 =>
    obtain ⟨s2, hs2⟩ := goodChan_some table rs2 f2 hg2 hr2
    simp only [hr2, hs2]
    refine ⟨_, rfl, ?_, rfl⟩
    simp [trajNewFrame, trajEndFrame]

/-- Claim C6: with the announcement acknowledged, and every waypoint's
converted values (and the point counts) fitting the 32-bit fields that
`struct.pack('<ii', …)` would otherwise raise on, `send_trajectory`
first announces the two point counts in one `SEND_TRAJECTORY_NEW`
transaction, then sends exactly one `SEND_TRAJECTORY_DATA` transaction
per waypoint — each angle converted to position counts and each time to
a timestamp — with all alpha points preceding all beta points, followed
by exactly one `SEND_TRAJECTORY_DATA_END`. -/
theorem sendTrajectory_protocol (table : Nat → Option String)
    (st : DriverState) (alpha beta : List (ℚ × ℚ)) (f : RxFrame)
    (hm : int32Ok (alpha.length : Int)) (hn : int32Ok (beta.length : Int))
    (hwa : ∀ p ∈ alpha, waypointOk p) (hwb : ∀ p ∈ beta, waypointOk p)
    (hgood : goodChan table st.recvs)
    (hans : (getAnswer st.recvs).1 = some f) :
    ∃ st', sendTrajectory table st alpha beta = Except.ok st' ∧
      st'.sent = st.sent ++ [trajNewFrame alpha.length beta.length] ++
        alpha.map trajDataFrame ++ beta.map trajDataFrame ++
        [trajEndFrame] ∧
      (st'.sent.drop st.sent.length).countP
        (fun fr => fr.command = Command.SEND_TRAJECTORY_DATA) =
        alpha.length + beta.length ∧
      st'.status = st.status := by
  obtain ⟨st', hok, hsent, hstat⟩ :=
    sendTrajectory_ok_trace table st alpha beta f hm hn hwa hwb hgood hans
  refine ⟨st', hok, hsent, ?_, hstat⟩
  rw [hsent]
  have h1 : ∀ l : List (ℚ × ℚ),
      List.countP
        ((fun fr => decide (fr.command = Command.SEND_TRAJECTORY_DATA)) ∘
          trajDataFrame) l = l.length := by
    intro l
    rw [List.countP_eq_length]
    exact fun a ha => by simp [trajDataFrame]
  simp [List.countP_append, trajNewFrame, trajEndFrame, h1]

/-- Claim C6, witness: 2 alpha points and 1 beta point — all with
in-range converted values — produce the announcement, 2 + 1 data frames
(alpha first), then the end marker. -/
theorem sendTrajectory_protocol_witness :
    goodChan tableOne [some ⟨1, []⟩] ∧
    (getAnswer ([some ⟨1, []⟩] : List (Option RxFrame))).1 = some ⟨1, []⟩ ∧
    (∀ p ∈ [((90 : ℚ), (1 : ℚ)), (180, 2)], waypointOk p) ∧
    (∀ p ∈ [((45 : ℚ), (1 / 2 : ℚ))], waypointOk p) ∧
    ∃ st', sendTrajectory tableOne ⟨[], [some ⟨1, []⟩], 0⟩
        [(90, 1), (180, 2)] [(45, 1 / 2)] = Except.ok st' ∧
      st'.sent = [] ++ [trajNewFrame 2 1] ++
        [(90, 1), (180, 2)].map trajDataFrame ++
        [((45 : ℚ), (1 / 2 : ℚ))].map trajDataFrame ++ [trajEndFrame] ∧
      (st'.sent.drop 0).countP
        (fun fr => fr.command = Command.SEND_TRAJECTORY_DATA) = 2 + 1 ∧
      st'.status = 0 := by
  have hwa : ∀ p ∈ [((90 : ℚ), (1 : ℚ)), (180, 2)], waypointOk p := by
    intro p hp
    simp only [List.mem_cons, List.not_mem_nil, or_false] at hp
    rcases hp with rfl | rfl <;>
      constructor <;>
        norm_num [int32Ok, angleToPosition, secondsToTimestamp,
          pythonRound, POSITION_RESOLUTION, TIME_RESOLUTION]
  have hwb : ∀ p ∈ [((45 : ℚ), (1 / 2 : ℚ))], waypointOk p := by
    intro p hp
    simp only [List.mem_cons, List.not_mem_nil, or_false] at hp
    rcases hp with rfl
    constructor <;>
      norm_num [int32Ok, angleToPosition, secondsToTimestamp,
        pythonRound, POSITION_RESOLUTION, TIME_RESOLUTION]
  exact ⟨by decide, by decide, hwa, hwb,
    sendTrajectory_protocol tableOne ⟨[], [some ⟨1, []⟩], 0⟩
      [(90, 1), (180, 2)] [(45, 1 / 2)] ⟨1, []⟩ (by decide) (by decide)
      hwa hwb (by decide) (by decide)⟩

/-- Claim C10: `send_trajectory` aborts after the announcement exactly
when the `SEND_TRAJECTORY_NEW` transaction gets no reply — then only the
announcement frame is sent, no data and no end frame; whereas with the
announcement acknowledged, missing replies to individual data points do
not stop the upload: every waypoint (whose converted values fit the
32-bit fields `struct.pack('<ii', …)` would otherwise raise on) and the
end marker are still sent. -/
theorem sendTrajectory_abort_iff (table : Nat → Option String)
    (st : DriverState) (alpha beta : List (ℚ × ℚ))
    (hm : int32Ok (alpha.length : Int)) (hn : int32Ok (beta.length : Int))
    (hgood : goodChan table st.recvs) :
    ((getAnswer st.recvs).1 = none →
      sendTrajectory table st alpha beta = Except.ok
        ⟨st.sent ++ [trajNewFrame alpha.length beta.length],
          (getAnswer st.recvs).2.1, st.status⟩) ∧
    (∀ f, (getAnswer st.recvs).1 = some f →
      (∀ p ∈ alpha, waypointOk p) → (∀ p ∈ beta, waypointOk p) →
      ∃ st', sendTrajectory table st alpha beta = Except.ok st' ∧
        st'.sent = st.sent ++ [trajNewFrame alpha.length beta.length] ++
          alpha.map trajDataFrame ++ beta.map trajDataFrame ++
          [trajEndFrame]) := by
  have hpkN := packii_ok _ _ hm hn
  constructor
  · intro h
    rw [sendTrajectory_pack_some table st alpha beta _ hpkN]
    simp only [sendTrajectoryRest, stepGetAnswer, sendCommand, h,
      trajNewFrame]
  · intro f hans hwa hwb
    obtain ⟨st', hok, hsent, hstat⟩ :=
      sendTrajectory_ok_trace table st alpha beta f hm hn hwa hwb hgood hans
    exact ⟨st', hok, hsent⟩

/-- Claim C10, witness: on a channel with no reply at all, only the
announcement goes out; on a channel acknowledging only the announcement
(each data point then gets no reply), the whole upload still goes out. -/
theorem sendTrajectory_abort_iff_witness :
    goodChan tableOne [] ∧ goodChan tableOne [some ⟨1, []⟩] ∧
    (getAnswer ([] : List (Option RxFrame))).1 = none ∧
    (sendTrajectory tableOne ⟨[], [], 0⟩ [(45, 1)] [(90, 2)] = Except.ok
      ⟨[trajNewFrame 1 1], [], 0⟩) ∧
    ∃ st', sendTrajectory tableOne ⟨[], [some ⟨1, []⟩], 0⟩
        [(45, 1)] [(90, 2)] = Except.ok st' ∧
      st'.sent = [] ++ [trajNewFrame 1 1] ++
        [((45 : ℚ), (1 : ℚ))].map trajDataFrame ++
        [((90 : ℚ), (2 : ℚ))].map trajDataFrame ++ [trajEndFrame] := by
  have hw1 : ∀ p ∈ [((45 : ℚ), (1 : ℚ))], waypointOk p := by
    intro p hp
    simp only [List.mem_cons, List.not_mem_nil, or_false] at hp
    rcases hp with rfl
    constructor <;>
      norm_num [int32Ok, angleToPosition, secondsToTimestamp,
        pythonRound, POSITION_RESOLUTION, TIME_RESOLUTION]
  have hw2 : ∀ p ∈ [((90 : ℚ), (2 : ℚ))], waypointOk p := by
    intro p hp
    simp only [List.mem_cons, List.not_mem_nil, or_false] at hp
    rcases hp with rfl
    constructor <;>
      norm_num [int32Ok, angleToPosition, secondsToTimestamp,
        pythonRound, POSITION_RESOLUTION, TIME_RESOLUTION]
  exact ⟨by decide, by decide, by decide,
    (sendTrajectory_abort_iff tableOne ⟨[], [], 0⟩ [(45, 1)] [(90, 2)]
      (by decide) (by decide) (by decide)).1 (by decide),
    (sendTrajectory_abort_iff tableOne ⟨[], [some ⟨1, []⟩], 0⟩
      [(45, 1)] [(90, 2)] (by decide) (by decide) (by decide)).2
      ⟨1, []⟩ (by decide) hw1 hw2⟩

/-- Entries left on the channel after a receive step were already there. -/
theorem getAnswer_stream_subset (rs : List (Option RxFrame)) :
    ∀ or ∈ (getAnswer rs).2.1, or ∈ rs := by
  obtain ⟨k, hk⟩ := getAnswerAux_drop 5 rs
  rw [getAnswer, hk]
  exact fun or hor => List.mem_of_mem_drop hor

/-- A channel entry keeps `wait_move` waiting: either no frame, or a
well-formed status reply — decodable response code and the exactly
8-byte payload `struct.unpack('<Q', …)` demands — whose decoded status
has `displacement_completed` unset. -/
def stuckRx (table : Nat → Option String) : Option RxFrame → Bool
  | none => true
  | some f => (getResponseCode table f.arbitration_id).isSome &&
      (f.data.length == 8) &&
      !(decodePositioner (unpackLE f.data)).displacement_completed

/-- The polling loop of `Positioner.wait_move`: while the stored status
has `displacement_completed != 1`, issue one status query and sleep the
fixed 0.5 s interval.  The loop has no bound of its own, so it takes
fuel; `Except.ok none` models the loop still running when the fuel is
spent, and the returned number counts the completed iterations (each one
status query plus one 0.5 s sleep). -/
def waitMoveLoop (table : Nat → Option String) :
    Nat → DriverState → Nat → Except Unit (Option (DriverState × Nat))
  | fuel, st, sleeps =>
    if (decodePositioner st.status).displacement_completed = true then
      Except.ok (some (st, sleeps))
    else
      match fuel with
      | 0 => Except.ok none
      | fuel + 1 =>
        match getStatus table st with
        | Except.error e => Except.error e
        | Except.ok st1 => waitMoveLoop table fuel st1 (sleeps + 1)

/-- `Positioner.wait_move`: one initial `get_status`, then the polling
loop. -/
def waitMove (table : Nat → Option String) (fuel : Nat) (st : DriverState) :
    Except Unit (Option (DriverState × Nat)) :=
  match getStatus table st with
  | Except.error e => Except.error e
  | Except.ok st1 => waitMoveLoop table fuel st1 0

/-- A successful `get_status` appends exactly one `GET_STATUS` frame. -/
theorem getStatus_ok_sent (table : Nat → Option String)
    (st st1 : DriverState) (h : getStatus table st = Except.ok st1) :
    st1.sent = st.sent ++ [⟨Command.GET_STATUS, []⟩] := by
  simp only [getStatus, stepGetAnswer, sendCommand] at h
  cases hra : (getAnswer st.recvs).1 with
  | none =>
    rw [hra] at h
    simp only [Except.ok.injEq] at h
    rw [← h]
  | some f =>
    rw [hra] at h
    cases hlk : getResponseCode table f.arbitration_id with
    | none => simp [hlk] at h
    | some s =>
      by_cases hlen : f.data.length = 8
      · simp only [hlk, hlen, eq_self_iff_true, if_true, Except.ok.injEq] at h
        rw [← h]
      · simp [hlk, hlen] at h

/-- On a channel whose entries all keep `wait_move` waiting, `get_status`
returns normally, the stored flag stays unset, and the remaining channel
still keeps it waiting. -/
theorem getStatus_stuck (table : Nat → Option String) (st : DriverState)
    (h8 : (decodePositioner st.status).displacement_completed = false)
    (hs : ∀ or ∈ st.recvs, stuckRx table or = true) :
    ∃ st1, getStatus table st = Except.ok st1 ∧
      (decodePositioner st1.status).displacement_completed = false ∧
      (∀ or ∈ st1.recvs, stuckRx table or = true) := by
  cases hra : (getAnswer st.recvs).1 with
  | none =>
    refine ⟨⟨st.sent ++ [⟨Command.GET_STATUS, []⟩],
      (getAnswer st.recvs).2.1, st.status⟩, ?_, h8, ?_⟩
    · simp only [getStatus, stepGetAnswer, sendCommand, hra]
    · exact fun or hor => hs or (getAnswer_stream_subset st.recvs or hor)
  | some f =>
    have hmem := getAnswerAux_some_mem 5 st.recvs f hra
    have hstuck := hs (some f) hmem
    simp only [stuckRx, Bool.and_eq_true, Bool.not_eq_true', beq_iff_eq]
      at hstuck
    obtain ⟨⟨hsome, hlen⟩, hflag⟩ := hstuck
    rw [Option.isSome_iff_exists] at hsome
    obtain ⟨s, hlk⟩ := hsome
    refine ⟨⟨st.sent ++ [⟨Command.GET_STATUS, []⟩],
      (getAnswer st.recvs).2.1, unpackLE f.data⟩, ?_, hflag, ?_⟩
    · simp only [getStatus, stepGetAnswer, sendCommand, hra, hlk, hlen,
        eq_self_iff_true, if_true]
    · exact fun or hor => hs or (getAnswer_stream_subset st.recvs or hor)

/-- When the polling loop exits, the stored flag is set and it has issued
exactly one status query per completed iteration. -/
theorem waitMoveLoop_ok (table : Nat → Option String) :
    ∀ (fuel : Nat) (st : DriverState) (sleeps : Nat) (st' : DriverState)
      (n : Nat), waitMoveLoop table fuel st sleeps = Except.ok (some (st', n)) →
      (decodePositioner st'.status).displacement_completed = true ∧
      sleeps ≤ n ∧
      st'.sent = st.sent ++ List.replicate (n - sleeps) ⟨Command.GET_STATUS, []⟩ := by
  intro fuel
  induction fuel with
  | zero =>
    intro st sleeps st' n h
    by_cases hfl : (decodePositioner st.status).displacement_completed = true
    · rw [waitMoveLoop, if_pos hfl] at h
      simp only [Except.ok.injEq, Option.some.injEq, Prod.mk.injEq] at h
      obtain ⟨h1, h2⟩ := h
      subst h1; subst h2
      exact ⟨hfl, le_refl _, by simp⟩
    · rw [waitMoveLoop, if_neg hfl] at h
      simp at h
  | succ fuel ih =>
    intro st sleeps st' n h
    by_cases hfl : (decodePositioner st.status).displacement_completed = true
    · rw [waitMoveLoop, if_pos hfl] at h
      simp only [Except.ok.injEq, Option.some.injEq, Prod.mk.injEq] at h
      obtain ⟨h1, h2⟩ := h
      subst h1; subst h2
      exact ⟨hfl, le_refl _, by simp⟩
    · rw [waitMoveLoop, if_neg hfl] at h
      cases hgs : getStatus table st with
      | error e => rw [hgs] at h; simp at h
      | ok st1 =>
        rw [hgs] at h
        obtain ⟨hflag, hle, hsent⟩ := ih st1 (sleeps + 1) st' n h
        have hsent1 := getStatus_ok_sent table st st1 hgs
        refine ⟨hflag, by omega, ?_⟩
        rw [hsent, hsent1, List.append_assoc]
        congr 1
        have heq : n - sleeps = (n - (sleeps + 1)) + 1 := by omega
        rw [heq, List.replicate_succ]
        rfl

/-- On a channel that never reports completion the polling loop runs out
of any fuel. -/
theorem waitMoveLoop_stuck (table : Nat → Option String) :
    ∀ (fuel : Nat) (st : DriverState) (sleeps : Nat),
      (decodePositioner st.status).displacement_completed = false →
      (∀ or ∈ st.recvs, stuckRx table or = true) →
      waitMoveLoop table fuel st sleeps = Except.ok none := by
  intro fuel
  induction fuel with
  | zero =>
    intro st sleeps h8 hs
    rw [waitMoveLoop, if_neg (by simp [h8])]
  | succ fuel ih =>
    intro st sleeps h8 hs
    obtain ⟨st1, hgs, h8', hs'⟩ := getStatus_stuck table st h8 hs
    rw [waitMoveLoop, if_neg (by simp [h8]), hgs]
    exact ih st1 (sleeps + 1) h8' hs'

/-- Claim C9: `wait_move` never returns while the decoded
`displacement_completed` flag is unset — whenever it returns after `n`
loop iterations (each one status query and one fixed 0.5 s sleep, with no
attempt bound of its own), the stored status decodes with
`displacement_completed` set and exactly `n + 1` status queries were
issued; and against a device whose (well-formed, 8-byte) status replies
never set the flag the loop runs forever: it is still running (`none`)
at every fuel.  A malformed reply instead crashes `get_status` with an
uncaught `struct.error`, which is why `stuckRx` demands the 8-byte
payload. -/
theorem waitMove_spec (fuel : Nat) (table : Nat → Option String)
    (st : DriverState) :
    (∀ st' n, waitMove table fuel st = Except.ok (some (st', n)) →
      (decodePositioner st'.status).displacement_completed = true ∧
      st'.sent = st.sent ++ List.replicate (n + 1) ⟨Command.GET_STATUS, []⟩) ∧
    ((decodePositioner st.status).displacement_completed = false →
      (∀ or ∈ st.recvs, stuckRx table or = true) →
      ∀ fuel2, waitMove table fuel2 st = Except.ok none) := by
  constructor
  · intro st' n h
    rw [waitMove] at h
    cases hgs : getStatus table st with
    | error e => rw [hgs] at h; simp at h
    | ok st1 =>
      rw [hgs] at h
      obtain ⟨hflag, hle, hsent⟩ := waitMoveLoop_ok table fuel st1 0 st' n h
      have hsent1 := getStatus_ok_sent table st st1 hgs
      refine ⟨hflag, ?_⟩
      rw [hsent, hsent1, List.append_assoc]
      congr 1
  · intro h8 hs fuel2
    obtain ⟨st1, hgs, h8', hs'⟩ := getStatus_stuck table st h8 hs
    rw [waitMove, hgs]
    exact waitMoveLoop_stuck table fuel2 st1 0 h8' hs'

/-- Claim C9, witness: with the stored status already reporting
completion and an empty channel, `wait_move` returns after the initial
query with the flag set and one `GET_STATUS` issued; with the flag unset
and a channel delivering a well-formed 8-byte status reply that does not
report completion, `wait_move` is still running at fuel 7. -/
theorem waitMove_spec_witness :
    waitMove tableOne 3 ⟨[], [], 2 ^ 8⟩ =
      Except.ok (some (⟨[⟨Command.GET_STATUS, []⟩], [], 2 ^ 8⟩, 0)) ∧
    ((decodePositioner
        ((⟨[⟨Command.GET_STATUS, []⟩], [], 2 ^ 8⟩ :
          DriverState)).status).displacement_completed = true ∧
      (⟨[⟨Command.GET_STATUS, []⟩], [], 2 ^ 8⟩ : DriverState).sent =
        [] ++ List.replicate (0 + 1) ⟨Command.GET_STATUS, []⟩) ∧
    waitMove tableOne 7
      ⟨[], [some ⟨1, [0, 0, 0, 0, 0, 0, 0, 0]⟩], 0⟩ = Except.ok none :=
  ⟨by decide,
    (waitMove_spec 3 tableOne ⟨[], [], 2 ^ 8⟩).1
      ⟨[⟨Command.GET_STATUS, []⟩], [], 2 ^ 8⟩ 0 (by decide),
    (waitMove_spec 0 tableOne
      ⟨[], [some ⟨1, [0, 0, 0, 0, 0, 0, 0, 0]⟩], 0⟩).2
      (by decide) (by decide) 7⟩
